import Mathlib

/-!
Verification of the entity delete/save lifecycle of the FireCMS
`DeleteEntityDialog` component and its schema model.

The embedding represents the observable effects of the dialog's handlers
(store calls, snackbar notifications, caller callbacks, dialog close,
loading-state changes, promise resolutions) as an explicit event trace
(`List Event`), produced by pure Lean translations of the source
functions.  The single-entity delete executor `deleteEntity` and the save
executor live in `src/models/firestore`, which is not among the source
files; those two definitions are modelled from the specification, as
their doc comments state.  Everything else is translated directly from
`src/collection/internal/DeleteEntityDialog.tsx` and
`src/models/entities.ts`.
-/

/-- `EntityValues<M>`: the value map of an entity, keyed by field name.
The generic payload `M` is embedded as a concrete association list of
string fields, which is all the lifecycle logic ever treats it as. -/
abbrev EntityValues := List (String × String)

/-- `Entity<M>` from `src/models`: id, a back-reference to its storage
location (embedded as the reference path string) and the value map. -/
structure Entity where
  id : String
  reference : String
  values : EntityValues
deriving DecidableEq, Repr

/-- `EntitySchema.customId`: absent/false lets the store assign an id
(`auto`), `true` lets the user choose freely, and an `EnumValues` object
restricts the id to an enumerated set of allowed values (its keys). -/
inductive CustomIdPolicy where
  | auto
  | userChosen
  | enumerated (values : List String)
deriving DecidableEq, Repr

/-- `EntityStatus` from `src/models`: new, existing, or copy. -/
inductive EntityStatus where
  | new
  | existing
  | copy
deriving DecidableEq, Repr

/-- The ambient app context (`CMSAppContext`), opaque to the lifecycle
logic: it is passed through to hooks and never inspected. -/
structure CMSAppContext where
deriving DecidableEq, Repr

/-- The data fields of an `EntitySchema` (name, description, identifier
policy).  Split from the hook fields so hook argument types
(`EntityDeleteProps`, `EntitySaveProps`) can refer to the schema data
without a recursive occurrence of the function-carrying schema type. -/
structure SchemaInfo where
  name : String
  description : Option String
  customId : CustomIdPolicy
deriving DecidableEq, Repr

/-- `EntityDeleteProps<M>` from `src/models`: parameters passed to
delete hooks. -/
structure EntityDeleteProps where
  schema : SchemaInfo
  collectionPath : String
  id : String
  entity : Entity
  context : CMSAppContext

/-- `EntitySaveProps<M>` from `src/models`: parameters passed to save
hooks.  `id` is optional (undefined for a new entity). -/
structure EntitySaveProps where
  schema : SchemaInfo
  collectionPath : String
  id : Option String
  values : EntityValues
  status : EntityStatus
  context : CMSAppContext

/-- `EntitySchema<M>` from `src/models`: the data fields plus the five
optional lifecycle hooks.  A hook that can throw is embedded as a
function into `Except String _`, the error case being a thrown `Error`
with its message. -/
structure EntitySchema extends SchemaInfo where
  onPreSave : Option (EntitySaveProps → Except String EntityValues)
  onSaveSuccess : Option (EntitySaveProps → Except String Unit)
  onSaveFailure : Option (EntitySaveProps → Except String Unit)
  onPreDelete : Option (EntityDeleteProps → Except String Unit)
  onDelete : Option (EntityDeleteProps → Except String Unit)

/-- One snackbar notification: `snackbarContext.open({type, title?, message})`. -/
structure SnackbarEntry where
  type : String
  title : Option String
  message : String
deriving DecidableEq, Repr

/-- Observable effects of the delete/save workflow, in order of
occurrence. `deleteResolved` marks the resolution of one
`deleteEntity` promise (the point where its `Promise<boolean>` settles);
`hookError` records a post-save hook failure reported alongside the
save verdict. -/
inductive Event where
  | storeDelete (collectionPath : String) (id : String)
  | storeSave (collectionPath : String) (id : Option String)
  | snackbar (entry : SnackbarEntry)
  | hookError (phase : String) (message : String)
  | deleteResolved (id : String) (success : Bool)
  | callbackEntityDelete (collectionPath : String) (entity : Entity)
  | callbackMultipleDelete (collectionPath : String) (entities : List Entity)
  | close
  | setLoading (value : Bool)
deriving DecidableEq, Repr

/-- Snackbar notifications occurring in a trace, in order. -/
def snackbars (trace : List Event) : List SnackbarEntry :=
  trace.filterMap fun ev =>
    match ev with
    | Event.snackbar s => some s
    | _ => none

/-- Store delete calls occurring in a trace (collection path, id). -/
def storeDeleteCalls (trace : List Event) : List (String × String) :=
  trace.filterMap fun ev =>
    match ev with
    | Event.storeDelete p i => some (p, i)
    | _ => none

/-- Store save calls occurring in a trace. -/
def storeSaveCalls (trace : List Event) : List (String × Option String) :=
  trace.filterMap fun ev =>
    match ev with
    | Event.storeSave p i => some (p, i)
    | _ => none

/-- Invocations of the single-entity completion callback
`onEntityDelete` in a trace, with their arguments. -/
def entityCallbackCalls (trace : List Event) : List (String × Entity) :=
  trace.filterMap fun ev =>
    match ev with
    | Event.callbackEntityDelete p e => some (p, e)
    | _ => none

/-- Invocations of the batch completion callback
`onMultipleEntitiesDelete` in a trace, with their arguments. -/
def multiCallbackCalls (trace : List Event) : List (String × List Entity) :=
  trace.filterMap fun ev =>
    match ev with
    | Event.callbackMultipleDelete p es => some (p, es)
    | _ => none

/-- Number of `onClose` invocations in a trace. -/
def closeCount (trace : List Event) : Nat :=
  trace.countP fun ev =>
    match ev with
    | Event.close => true
    | _ => false

/-- `onDeleteSuccess` handler of `DeleteEntityDialog`: only
`console.debug`, no observable effect. -/
def onDeleteSuccess (_schema : EntitySchema) (_entity : Entity) : List Event :=
  []

/-- `onDeleteFailure` handler of `DeleteEntityDialog`: error snackbar
`{schema.name}: Error deleting`. -/
def onDeleteFailure (schema : EntitySchema) (_entity : Entity) (e : String) : List Event :=
  [Event.snackbar ⟨"error", some (schema.name ++ ": Error deleting"), e⟩]

/-- `onPreDeleteHookError` handler of `DeleteEntityDialog`: error
snackbar `{schema.name}: Error before deleting`. -/
def onPreDeleteHookError (schema : EntitySchema) (_entity : Entity) (e : String) : List Event :=
  [Event.snackbar ⟨"error", some (schema.name ++ ": Error before deleting"), e⟩]

/-- `onDeleteSuccessHookError` handler of `DeleteEntityDialog`: error
snackbar `{schema.name}: Error after deleting (entity is deleted)`. -/
def onDeleteSuccessHookError (schema : EntitySchema) (_entity : Entity) (e : String) : List Event :=
  [Event.snackbar ⟨"error", some (schema.name ++ ": Error after deleting (entity is deleted)"), e⟩]

/-- Modelled from the spec: the single-entity delete executor
`deleteEntity` of `src/models/firestore`, whose file is not among the
sources (only its import and call site in `DeleteEntityDialog.tsx`
are).  Spec section 4.2, Delete operation: (1) if `onPreDelete` is
present invoke it with `{schema, collectionPath, id, entity, context}`;
a failure there aborts the delete entirely (no store deletion
attempted), reported through the pre-delete error handler; (2) delete
via the store by collection path + id; (3) on store success invoke
`onDelete` if present, a failure there is reported through the
post-delete error handler but the delete is still a success; (4) on
store failure report failure through the failure handler, `onDelete`
not invoked.  The returned `Bool` is the resolution value of the
source's `Promise<boolean>`; the trace records the store call, the
handler effects and the promise resolution. -/
def deleteEntity (store : String → String → Except String Unit)
    (schema : EntitySchema) (collectionPath : String) (entity : Entity)
    (onSuccessCb : Entity → List Event)
    (onFailureCb : Entity → String → List Event)
    (onPreHookErrorCb : Entity → String → List Event)
    (onPostHookErrorCb : Entity → String → List Event)
    (context : CMSAppContext) : Bool × List Event :=
  let props : EntityDeleteProps :=
    ⟨schema.toSchemaInfo, collectionPath, entity.id, entity, context⟩
  let preResult : Except String Unit :=
    match schema.onPreDelete with
    | some hook => hook props
    | none => Except.ok ()
  match preResult with
  | Except.error e =>
      (false, onPreHookErrorCb entity e ++ [Event.deleteResolved entity.id false])
  | Except.ok _ =>
      match store collectionPath entity.id with
      | Except.ok _ =>
          let postEvents : List Event :=
            match schema.onDelete with
            | some hook =>
                match hook props with
                | Except.error e => onPostHookErrorCb entity e
                | Except.ok _ => []
            | none => []
          (true, Event.storeDelete collectionPath entity.id ::
            (onSuccessCb entity ++ postEvents ++ [Event.deleteResolved entity.id true]))
      | Except.error e =>
          (false, Event.storeDelete collectionPath entity.id ::
            (onFailureCb entity e ++ [Event.deleteResolved entity.id false]))

/-- `performDelete` of `DeleteEntityDialog`: wires the dialog's four
handlers and the ambient context into `deleteEntity`. -/
def performDelete (store : String → String → Except String Unit)
    (schema : EntitySchema) (collectionPath : String)
    (context : CMSAppContext) (entity : Entity) : Bool × List Event :=
  deleteEntity store schema collectionPath entity
    (onDeleteSuccess schema)
    (onDeleteFailure schema)
    (onPreDeleteHookError schema)
    (onDeleteSuccessHookError schema)
    context

/-- The `entityOrEntitiesToDelete` prop: a single entity or an array. -/
inductive EntityOrEntities where
  | single (entity : Entity)
  | multiple (entities : List Entity)
deriving DecidableEq, Repr

/-- Normalization in the dialog's effect:
`Array.isArray(x) && x.length === 1 ? x[0] : x`. -/
def normalizeEntityOrEntities : EntityOrEntities → EntityOrEntities
  | EntityOrEntities.multiple [e] => EntityOrEntities.single e
  | x => x

/-- `Array.isArray` on the normalized value. -/
def isMultiple : EntityOrEntities → Bool
  | EntityOrEntities.multiple _ => true
  | EntityOrEntities.single _ => false

/-- The dialog's `React.useEffect` body: when the prop is present
(truthy), store the normalized value in `entityOrEntitiesRef` and set
`multipleEntities` to `Array.isArray` of it; when absent, leave both
unchanged. -/
def updateEntityOrEntitiesState (prop : Option EntityOrEntities)
    (prev : Option EntityOrEntities × Option Bool) :
    Option EntityOrEntities × Option Bool :=
  match prop with
  | none => prev
  | some x =>
      let n := normalizeEntityOrEntities x
      (some n, some (isMultiple n))

/-- The snackbar emitted by `handleOk`'s batch branch from the per-item
results: `results.every(Boolean)` gives the success snackbar,
`results.some(Boolean)` the warning snackbar, otherwise the error
snackbar. -/
def aggregateSnackbar (schema : EntitySchema) (results : List Bool) : SnackbarEntry :=
  if results.all (fun r => r) then
    ⟨"success", none, schema.name ++ ": multiple deleted"⟩
  else if results.any (fun r => r) then
    ⟨"warning", none, schema.name ++ ": Some of the entities have been deleted, but not all"⟩
  else
    ⟨"error", none, schema.name ++ ": Error deleting entities"⟩

/-- `handleOk` of `DeleteEntityDialog`, as the trace of effects it
produces.  `hasEntityDeleteCallback` / `hasMultipleEntitiesDeleteCallback`
embed whether the optional `onEntityDelete` / `onMultipleEntitiesDelete`
props were supplied.  The batch branch awaits `Promise.all` over the
per-item deletes (their traces, in input order), then clears loading,
invokes the batch callback with `entityOrEntities` (the full list),
opens the aggregate snackbar and closes; the single branch awaits one
delete and, only on success, invokes `onEntityDelete`, opens the
success snackbar and closes.  The branch on `multipleEntities` is taken
on the constructor: the effect sets the flag to `isMultiple` of the
stored value, so the two always agree. -/
def handleOk (store : String → String → Except String Unit)
    (schema : EntitySchema) (collectionPath : String) (context : CMSAppContext)
    (hasEntityDeleteCallback : Bool) (hasMultipleEntitiesDeleteCallback : Bool)
    (entityOrEntities : Option EntityOrEntities) : List Event :=
  match entityOrEntities with
  | none => []
  | some (EntityOrEntities.multiple entities) =>
      let results := entities.map (performDelete store schema collectionPath context)
      Event.setLoading true ::
        ((results.map Prod.snd).flatten
          ++ [Event.setLoading false]
          ++ (if hasMultipleEntitiesDeleteCallback then
                [Event.callbackMultipleDelete collectionPath entities]
              else [])
          ++ [Event.snackbar (aggregateSnackbar schema (results.map Prod.fst)),
              Event.close])
  | some (EntityOrEntities.single entity) =>
      let r := performDelete store schema collectionPath context entity
      Event.setLoading true ::
        (r.2 ++ [Event.setLoading false]
          ++ (if r.1 then
                (if hasEntityDeleteCallback then
                  [Event.callbackEntityDelete collectionPath entity]
                 else [])
                ++ [Event.snackbar ⟨"success", none, schema.name ++ " deleted"⟩,
                    Event.close]
              else []))

/-- The dialog title: batch vs single wording, from the render body. -/
def dialogTitle (schema : EntitySchema) (multipleEntities : Bool) : String :=
  if multipleEntities then schema.name ++ ": Confirm multiple delete?"
  else "Would you like to delete this " ++ schema.name ++ "?"

/-- What the dialog renders as content. -/
inductive DialogContent where
  | empty
  | multipleEntitiesLabel
  | entityPreview (entity : Entity) (schemaName : String)
deriving DecidableEq, Repr

/-- The dialog's `content` expression: nothing while no value is stored,
the "Multiple entities" label when `multipleEntities`, otherwise an
`EntityPreview` of the stored entity.  As in `handleOk`, the
`multipleEntities` test is taken on the constructor, with which the
effect keeps it in sync. -/
def dialogContent (schema : EntitySchema) : Option EntityOrEntities → DialogContent
  | none => DialogContent.empty
  | some (EntityOrEntities.multiple _) => DialogContent.multipleEntitiesLabel
  | some (EntityOrEntities.single e) => DialogContent.entityPreview e schema.name

/-- Errors a save can fail with, per the spec's error taxonomy:
identifier-policy violation, lifecycle hook failure (with its phase),
or an error from the underlying store. -/
inductive SaveError where
  | validationFailure (message : String)
  | hookFailure (phase : String) (message : String)
  | storeFailure (message : String)
deriving DecidableEq, Repr

/-- Modelled from the spec: the identifier policy check of the save
executor (`src/models/firestore`, not among the sources).  Spec
section 4.2 Save step 2: if `customId` is an enumerated set, the id
must be one of the allowed values, a distinct validation failure
checked before invoking the store; spec section 3, `EntityStatus`
"determines whether identifier-policy checks apply": the check applies
to `new` and `copy` saves, not to re-saving an `existing` entity. -/
def validateCustomId (policy : CustomIdPolicy) (status : EntityStatus)
    (id : Option String) : Except SaveError Unit :=
  match status with
  | EntityStatus.existing => Except.ok ()
  | _ =>
      match policy with
      | CustomIdPolicy.enumerated allowed =>
          match id with
          | some i =>
              if allowed.contains i then Except.ok ()
              else Except.error (SaveError.validationFailure ("Invalid id: " ++ i))
          | none => Except.error (SaveError.validationFailure "Id is required")
      | _ => Except.ok ()

/-- Modelled from the spec: the save executor `saveEntity` of
`src/models/firestore`, not among the sources.  Spec section 4.2, Save
operation: (1) if `onPreSave` is present invoke it with
`{schema, collectionPath, id, values, status, context}`; its return
value replaces the values to persist, and a failure aborts the save
with no store write; (2) validate the identifier policy before
invoking the store, then persist via the store, which assigns or
confirms the id; (3) on store success invoke `onSaveSuccess`; a
failure there does not reverse the write, it is reported alongside the
still-successful save; (4) on store failure invoke `onSaveFailure`;
the save is a failure regardless of that hook's own outcome. -/
def saveEntity (storePut : String → Option String → EntityValues → Except String String)
    (schema : EntitySchema) (collectionPath : String) (id : Option String)
    (values : EntityValues) (status : EntityStatus) (context : CMSAppContext) :
    Except SaveError String × List Event :=
  let props : EntitySaveProps :=
    ⟨schema.toSchemaInfo, collectionPath, id, values, status, context⟩
  let preResult : Except String EntityValues :=
    match schema.onPreSave with
    | some hook => hook props
    | none => Except.ok values
  match preResult with
  | Except.error e =>
      (Except.error (SaveError.hookFailure "pre-save" e), [])
  | Except.ok savedValues =>
      match validateCustomId schema.customId status id with
      | Except.error err => (Except.error err, [])
      | Except.ok _ =>
          match storePut collectionPath id savedValues with
          | Except.ok assignedId =>
              let postEvents : List Event :=
                match schema.onSaveSuccess with
                | some hook =>
                    match hook { props with id := some assignedId, values := savedValues } with
                    | Except.error e => [Event.hookError "post-save-success" e]
                    | Except.ok _ => []
                | none => []
              (Except.ok assignedId,
                Event.storeSave collectionPath id :: postEvents)
          | Except.error e =>
              let postEvents : List Event :=
                match schema.onSaveFailure with
                | some hook =>
                    match hook { props with values := savedValues } with
                    | Except.error e2 => [Event.hookError "post-save-failure" e2]
                    | Except.ok _ => []
                | none => []
              (Except.error (SaveError.storeFailure e),
                Event.storeSave collectionPath id :: postEvents)

/-- Events a single `performDelete` can emit: a store delete call, an
error snackbar from one of the dialog's handlers, or its own promise
resolution — in particular no dialog close, no loading change and no
completion callback. -/
def isDeleteItemEvent : Event → Bool
  | Event.storeDelete _ _ => true
  | Event.snackbar s => s.type == "error"
  | Event.deleteResolved _ _ => true
  | _ => false

theorem performDelete_all_itemEvents (store : String → String → Except String Unit)
    (schema : EntitySchema) (path : String) (ctx : CMSAppContext) (e : Entity) :
    ((performDelete store schema path ctx e).2).all isDeleteItemEvent = true := by
  unfold performDelete deleteEntity
  repeat'
    first
      | split
      | simp [onDeleteSuccess, onDeleteFailure, onPreDeleteHookError,
          onDeleteSuccessHookError, isDeleteItemEvent]

theorem itemEvents_filterMap_eq_nil {β : Type} (f : Event → Option β)
    (hf : ∀ ev, isDeleteItemEvent ev = true → f ev = none) :
    ∀ l : List Event, l.all isDeleteItemEvent = true → l.filterMap f = [] := by
  intro l hl
  induction l with
  | nil => rfl
  | cons a t ih =>
      rw [List.all_cons, Bool.and_eq_true] at hl
      rw [List.filterMap_cons, hf a hl.1, ih hl.2]

theorem itemEvents_multiCallbackCalls {l : List Event}
    (hl : l.all isDeleteItemEvent = true) : multiCallbackCalls l = [] := by
  refine itemEvents_filterMap_eq_nil _ ?_ l hl
  intro ev h
  cases ev <;> simp_all [isDeleteItemEvent]

theorem itemEvents_entityCallbackCalls {l : List Event}
    (hl : l.all isDeleteItemEvent = true) : entityCallbackCalls l = [] := by
  refine itemEvents_filterMap_eq_nil _ ?_ l hl
  intro ev h
  cases ev <;> simp_all [isDeleteItemEvent]

theorem itemEvents_closeCount {l : List Event}
    (hl : l.all isDeleteItemEvent = true) : closeCount l = 0 := by
  rw [closeCount, List.countP_eq_zero]
  intro a ha
  rw [List.all_eq_true] at hl
  have := hl a ha
  cases a <;> simp_all [isDeleteItemEvent]

theorem itemEvents_snackbars_error {l : List Event}
    (hl : l.all isDeleteItemEvent = true) :
    (snackbars l).all (fun s => s.type == "error") = true := by
  induction l with
  | nil => rfl
  | cons a t ih =>
      rw [List.all_cons, Bool.and_eq_true] at hl
      rw [snackbars, List.filterMap_cons]
      cases a <;> simp_all [isDeleteItemEvent, snackbars]

theorem performDelete_resolved_mem (store : String → String → Except String Unit)
    (schema : EntitySchema) (path : String) (ctx : CMSAppContext) (e : Entity) :
    Event.deleteResolved e.id (performDelete store schema path ctx e).1
      ∈ (performDelete store schema path ctx e).2 := by
  unfold performDelete deleteEntity
  repeat'
    first
      | split
      | simp [onDeleteSuccess, onDeleteFailure, onPreDeleteHookError,
          onDeleteSuccessHookError]

theorem all_true_iff_count {l : List Bool} :
    l.all (fun r => r) = true ↔ l.count true = l.length := by
  rw [List.all_eq_true, List.count_eq_length]
  constructor
  · intro h b hb
    exact (h b hb).symm
  · intro h b hb
    exact (h b hb).symm

theorem any_true_iff_count {l : List Bool} :
    l.any (fun r => r) = true ↔ 0 < l.count true := by
  rw [List.any_eq_true, List.count_pos_iff]
  constructor
  · rintro ⟨x, hx, hxt⟩
    exact hxt ▸ hx
  · intro h
    exact ⟨true, h, rfl⟩

theorem aggregateSnackbar_type (schema : EntitySchema) (results : List Bool)
    (h : results ≠ []) :
    ((aggregateSnackbar schema results).type = "success"
        ↔ results.count true = results.length)
    ∧ ((aggregateSnackbar schema results).type = "error"
        ↔ results.count true = 0)
    ∧ ((aggregateSnackbar schema results).type = "warning"
        ↔ (0 < results.count true ∧ results.count true < results.length)) := by
  have hlen : 0 < results.length := List.length_pos.mpr h
  have hle : results.count true ≤ results.length := List.count_le_length true results
  unfold aggregateSnackbar
  by_cases hall : results.all (fun r => r) = true
  · have hcount : results.count true = results.length := all_true_iff_count.mp hall
    rw [if_pos hall]
    refine ⟨by simp [hcount], ?_, ?_⟩
    · constructor
      · intro habs
        simp at habs
      · intro habs
        exact absurd habs (by omega)
    · constructor
      · intro habs
        simp at habs
      · intro habs
        exact absurd habs (by omega)
  · have hcount : results.count true < results.length := by
      rcases Nat.lt_or_ge (results.count true) results.length with hlt | hge
      · exact hlt
      · exact absurd (all_true_iff_count.mpr (Nat.le_antisymm hle hge)) hall
    rw [if_neg hall]
    by_cases hany : results.any (fun r => r) = true
    · have hpos : 0 < results.count true := any_true_iff_count.mp hany
      rw [if_pos hany]
      refine ⟨?_, ?_, by simp [hpos, hcount]⟩
      · constructor
        · intro habs
          simp at habs
        · intro habs
          exact absurd habs (by omega)
      · constructor
        · intro habs
          simp at habs
        · intro habs
          exact absurd habs (by omega)
    · have hzero : results.count true = 0 := by
        rcases Nat.eq_zero_or_pos (results.count true) with h0 | hpos
        · exact h0
        · exact absurd (any_true_iff_count.mpr hpos) hany
      rw [if_neg hany]
      refine ⟨?_, by simp [hzero], ?_⟩
      · constructor
        · intro habs
          simp at habs
        · intro habs
          exact absurd habs (by omega)
      · constructor
        · intro habs
          simp at habs
        · intro habs
          exact absurd (habs.1) (by omega)

theorem handleOk_multiple_snackbars (store : String → String → Except String Unit)
    (schema : EntitySchema) (path : String) (ctx : CMSAppContext)
    (hasEntityCb hasMultiCb : Bool) (es : List Entity) :
    snackbars (handleOk store schema path ctx hasEntityCb hasMultiCb
        (some (EntityOrEntities.multiple es)))
      = snackbars ((es.map (performDelete store schema path ctx)).map Prod.snd).flatten
        ++ [aggregateSnackbar schema
            ((es.map (performDelete store schema path ctx)).map Prod.fst)] := by
  unfold handleOk
  cases hasMultiCb <;> simp [snackbars, List.filterMap_append]

/-- C2: for every non-empty batch of delete targets, with `results` the
per-item success flags, the aggregate notification emitted by
`handleOk`'s batch branch (the last snackbar of the trace) is
`aggregateSnackbar` of the results, and its severity is `success` iff
every item succeeded (k = N), `error` iff none did (k = 0), and
`warning` otherwise (0 < k < N). -/
theorem batch_classification (store : String → String → Except String Unit)
    (schema : EntitySchema) (path : String) (ctx : CMSAppContext)
    (hasEntityCb hasMultiCb : Bool) (es : List Entity) (results : List Bool)
    (hres : results = (es.map (performDelete store schema path ctx)).map Prod.fst)
    (h : es ≠ []) :
    (snackbars (handleOk store schema path ctx hasEntityCb hasMultiCb
          (some (EntityOrEntities.multiple es)))).getLast?
        = some (aggregateSnackbar schema results)
    ∧ ((aggregateSnackbar schema results).type = "success"
        ↔ results.count true = es.length)
    ∧ ((aggregateSnackbar schema results).type = "error"
        ↔ results.count true = 0)
    ∧ ((aggregateSnackbar schema results).type = "warning"
        ↔ (0 < results.count true ∧ results.count true < es.length)) := by
  have hne : results ≠ [] := by
    rw [hres]
    simp [h]
  have hlen : results.length = es.length := by
    rw [hres]
    simp
  have hcls := aggregateSnackbar_type schema results hne
  rw [hlen] at hcls
  refine ⟨?_, hcls.1, hcls.2.1, hcls.2.2⟩
  rw [handleOk_multiple_snackbars, hres]
  exact List.getLast?_concat _

/-- Witness for C2 at a concrete input: one target whose store delete
is denied; the hypotheses hold and the aggregate snackbar is the error
one (k = 0). -/
theorem batch_classification_witness :
    ((snackbars (handleOk (fun _ _ => Except.error "denied")
          ⟨⟨"Product", none, CustomIdPolicy.auto⟩, none, none, none, none, none⟩
          "products" ⟨⟩ true true
          (some (EntityOrEntities.multiple [⟨"1", "products/1", []⟩])))).getLast?
        = some (aggregateSnackbar
            ⟨⟨"Product", none, CustomIdPolicy.auto⟩, none, none, none, none, none⟩
            [false]))
    ∧ ((aggregateSnackbar
          ⟨⟨"Product", none, CustomIdPolicy.auto⟩, none, none, none, none, none⟩
          [false]).type = "success" ↔ ([false] : List Bool).count true = 1)
    ∧ ((aggregateSnackbar
          ⟨⟨"Product", none, CustomIdPolicy.auto⟩, none, none, none, none, none⟩
          [false]).type = "error" ↔ ([false] : List Bool).count true = 0)
    ∧ ((aggregateSnackbar
          ⟨⟨"Product", none, CustomIdPolicy.auto⟩, none, none, none, none, none⟩
          [false]).type = "warning"
        ↔ (0 < ([false] : List Bool).count true ∧ ([false] : List Bool).count true < 1)) :=
  batch_classification (fun _ _ => Except.error "denied")
    ⟨⟨"Product", none, CustomIdPolicy.auto⟩, none, none, none, none, none⟩
    "products" ⟨⟩ true true [⟨"1", "products/1", []⟩] [false] rfl (by decide)

/-- C10: when no entity or entity list has been stored
(`entityOrEntities` is undefined), `handleOk` is a no-op: its trace is
empty, so no delete is started, no callback (`onEntityDelete`,
`onMultipleEntitiesDelete`, `onClose`) is invoked, no notification is
emitted and the loading flag is never touched. -/
theorem handleOk_none_noop (store : String → String → Except String Unit)
    (schema : EntitySchema) (path : String) (ctx : CMSAppContext)
    (hasEntityCb hasMultiCb : Bool) :
    handleOk store schema path ctx hasEntityCb hasMultiCb none = [] := rfl

/-- C4: when the schema's `onPreDelete` hook raises, the delete aborts
entirely: the outcome is failure, the trace holds no store delete call,
and the error reaches the pre-delete error handler (the snackbar titled
"Error before deleting"), not the generic delete-failure handler. -/
theorem predelete_hook_failure_aborts (store : String → String → Except String Unit)
    (schema : EntitySchema) (path : String) (ctx : CMSAppContext) (e : Entity)
    (hook : EntityDeleteProps → Except String Unit) (msg : String)
    (hpre : schema.onPreDelete = some hook)
    (herr : hook ⟨schema.toSchemaInfo, path, e.id, e, ctx⟩ = Except.error msg) :
    performDelete store schema path ctx e
      = (false,
          [Event.snackbar ⟨"error", some (schema.name ++ ": Error before deleting"), msg⟩,
           Event.deleteResolved e.id false])
    ∧ storeDeleteCalls (performDelete store schema path ctx e).2 = [] := by
  have h1 : performDelete store schema path ctx e
      = (false,
          [Event.snackbar ⟨"error", some (schema.name ++ ": Error before deleting"), msg⟩,
           Event.deleteResolved e.id false]) := by
    unfold performDelete deleteEntity
    simp only [hpre]
    rw [herr]
    simp [onPreDeleteHookError]
  refine ⟨h1, ?_⟩
  rw [h1]
  rfl

/-- Witness for C4: a one-field schema whose pre-delete hook throws
"blocked"; the delete fails, calls no store delete and notifies through
the pre-delete handler. -/
theorem predelete_hook_failure_aborts_witness :
    performDelete (fun _ _ => Except.ok ())
        ⟨⟨"Product", none, CustomIdPolicy.auto⟩, none, none, none,
          some (fun _ => Except.error "blocked"), none⟩
        "products" ⟨⟩ ⟨"1", "products/1", []⟩
      = (false,
          [Event.snackbar ⟨"error", some ("Product" ++ ": Error before deleting"), "blocked"⟩,
           Event.deleteResolved "1" false])
    ∧ storeDeleteCalls (performDelete (fun _ _ => Except.ok ())
        ⟨⟨"Product", none, CustomIdPolicy.auto⟩, none, none, none,
          some (fun _ => Except.error "blocked"), none⟩
        "products" ⟨⟩ ⟨"1", "products/1", []⟩).2 = [] :=
  predelete_hook_failure_aborts (fun _ _ => Except.ok ())
    ⟨⟨"Product", none, CustomIdPolicy.auto⟩, none, none, none,
      some (fun _ => Except.error "blocked"), none⟩
    "products" ⟨⟩ ⟨"1", "products/1", []⟩ (fun _ => Except.error "blocked") "blocked"
    rfl rfl

/-- C5: when the store delete succeeded and the schema's `onDelete`
(post-delete) hook then raises, the operation still resolves as a
success; the hook error is reported through the post-delete error
handler, whose snackbar title states that the entity is already
deleted, and the success verdict is unchanged. -/
theorem postdelete_hook_failure_still_success
    (store : String → String → Except String Unit)
    (schema : EntitySchema) (path : String) (ctx : CMSAppContext) (e : Entity)
    (hook : EntityDeleteProps → Except String Unit) (msg : String)
    (hpre : schema.onPreDelete = none)
    (hpost : schema.onDelete = some hook)
    (hstore : store path e.id = Except.ok ())
    (herr : hook ⟨schema.toSchemaInfo, path, e.id, e, ctx⟩ = Except.error msg) :
    performDelete store schema path ctx e
      = (true,
          [Event.storeDelete path e.id,
           Event.snackbar ⟨"error",
             some (schema.name ++ ": Error after deleting (entity is deleted)"), msg⟩,
           Event.deleteResolved e.id true]) := by
  unfold performDelete deleteEntity
  simp only [hpre, hpost, hstore]
  rw [herr]
  simp [onDeleteSuccess, onDeleteSuccessHookError]

/-- Witness for C5: the store accepts the delete and the post-delete
hook throws "boom"; the outcome is still success, with the post-delete
error snackbar in the trace. -/
theorem postdelete_hook_failure_still_success_witness :
    performDelete (fun _ _ => Except.ok ())
        ⟨⟨"Product", none, CustomIdPolicy.auto⟩, none, none, none, none,
          some (fun _ => Except.error "boom")⟩
        "products" ⟨⟩ ⟨"1", "products/1", []⟩
      = (true,
          [Event.storeDelete "products" "1",
           Event.snackbar ⟨"error",
             some ("Product" ++ ": Error after deleting (entity is deleted)"), "boom"⟩,
           Event.deleteResolved "1" true]) :=
  postdelete_hook_failure_still_success (fun _ _ => Except.ok ())
    ⟨⟨"Product", none, CustomIdPolicy.auto⟩, none, none, none, none,
      some (fun _ => Except.error "boom")⟩
    "products" ⟨⟩ ⟨"1", "products/1", []⟩ (fun _ => Except.error "boom") "boom"
    rfl rfl rfl rfl

/-- C6: saving with an enumerated `customId` whose supplied id is not
among the allowed values fails with a `ValidationFailure` and produces
an empty trace: in particular zero store calls, the check happening
before the store is ever invoked. -/
theorem save_invalid_enumerated_id
    (storePut : String → Option String → EntityValues → Except String String)
    (schema : EntitySchema) (path : String) (ctx : CMSAppContext)
    (values : EntityValues) (i : String) (allowed : List String)
    (hps : schema.onPreSave = none)
    (hcid : schema.customId = CustomIdPolicy.enumerated allowed)
    (hnotin : allowed.contains i = false) :
    saveEntity storePut schema path (some i) values EntityStatus.new ctx
      = (Except.error (SaveError.validationFailure ("Invalid id: " ++ i)), [])
    ∧ storeSaveCalls
        (saveEntity storePut schema path (some i) values EntityStatus.new ctx).2 = [] := by
  have h1 : saveEntity storePut schema path (some i) values EntityStatus.new ctx
      = (Except.error (SaveError.validationFailure ("Invalid id: " ++ i)), []) := by
    have hmem : i ∉ allowed := by simpa using hnotin
    unfold saveEntity validateCustomId
    simp [hps, hcid, hmem]
  refine ⟨h1, ?_⟩
  rw [h1]
  rfl

/-- Witness for C6: the spec's scenario — a "Product" schema with
`customId: {values:["a","b"]}` and a save attempted with id "c". -/
theorem save_invalid_enumerated_id_witness :
    saveEntity (fun _ _ _ => Except.ok "c")
        ⟨⟨"Product", none, CustomIdPolicy.enumerated ["a", "b"]⟩,
          none, none, none, none, none⟩
        "products" (some "c") [] EntityStatus.new ⟨⟩
      = (Except.error (SaveError.validationFailure ("Invalid id: " ++ "c")), [])
    ∧ storeSaveCalls
        (saveEntity (fun _ _ _ => Except.ok "c")
          ⟨⟨"Product", none, CustomIdPolicy.enumerated ["a", "b"]⟩,
            none, none, none, none, none⟩
          "products" (some "c") [] EntityStatus.new ⟨⟩).2 = [] :=
  save_invalid_enumerated_id (fun _ _ _ => Except.ok "c")
    ⟨⟨"Product", none, CustomIdPolicy.enumerated ["a", "b"]⟩,
      none, none, none, none, none⟩
    "products" ⟨⟩ [] "c" ["a", "b"] rfl rfl (by decide)

theorem batch_flatten_itemEvents (store : String → String → Except String Unit)
    (schema : EntitySchema) (path : String) (ctx : CMSAppContext) (es : List Entity) :
    ((es.map (performDelete store schema path ctx)).map Prod.snd).flatten.all
        isDeleteItemEvent = true := by
  rw [List.all_eq_true]
  intro ev hev
  rw [List.mem_flatten] at hev
  obtain ⟨l, hl, hevl⟩ := hev
  rw [List.mem_map] at hl
  obtain ⟨pr, hpr, rfl⟩ := hl
  rw [List.mem_map] at hpr
  obtain ⟨e, _, rfl⟩ := hpr
  have hall := performDelete_all_itemEvents store schema path ctx e
  rw [List.all_eq_true] at hall
  exact hall ev hevl

/-- C1 is false on the code: with two targets of which only the first
delete succeeds (a partial batch), `onMultipleEntitiesDelete` receives
the full requested list, not the succeeded subset `[e1]`; and when both
deletes fail (all-failed) the callback is still invoked. -/
theorem batch_callback_subset_counterexample :
    multiCallbackCalls (handleOk
        (fun _ i => if i = "1" then Except.ok () else Except.error "denied")
        ⟨⟨"Product", none, CustomIdPolicy.auto⟩, none, none, none, none, none⟩
        "products" ⟨⟩ false true
        (some (EntityOrEntities.multiple
          [⟨"1", "products/1", []⟩, ⟨"2", "products/2", []⟩])))
      = [("products", [⟨"1", "products/1", []⟩, ⟨"2", "products/2", []⟩])]
    ∧ ([⟨"1", "products/1", []⟩, ⟨"2", "products/2", []⟩] : List Entity).filter
        (fun e => (performDelete
          (fun _ i => if i = "1" then Except.ok () else Except.error "denied")
          ⟨⟨"Product", none, CustomIdPolicy.auto⟩, none, none, none, none, none⟩
          "products" ⟨⟩ e).1)
      = [⟨"1", "products/1", []⟩]
    ∧ ("products", ([⟨"1", "products/1", []⟩] : List Entity)) ∉
        multiCallbackCalls (handleOk
          (fun _ i => if i = "1" then Except.ok () else Except.error "denied")
          ⟨⟨"Product", none, CustomIdPolicy.auto⟩, none, none, none, none, none⟩
          "products" ⟨⟩ false true
          (some (EntityOrEntities.multiple
            [⟨"1", "products/1", []⟩, ⟨"2", "products/2", []⟩])))
    ∧ (aggregateSnackbar
        ⟨⟨"Product", none, CustomIdPolicy.auto⟩, none, none, none, none, none⟩
        (([⟨"1", "products/1", []⟩, ⟨"2", "products/2", []⟩] : List Entity).map
          (fun e => (performDelete
            (fun _ i => if i = "1" then Except.ok () else Except.error "denied")
            ⟨⟨"Product", none, CustomIdPolicy.auto⟩, none, none, none, none, none⟩
            "products" ⟨⟩ e).1))).type = "warning"
    ∧ multiCallbackCalls (handleOk (fun _ _ => Except.error "denied")
        ⟨⟨"Product", none, CustomIdPolicy.auto⟩, none, none, none, none, none⟩
        "products" ⟨⟩ false true
        (some (EntityOrEntities.multiple
          [⟨"1", "products/1", []⟩, ⟨"2", "products/2", []⟩])))
      ≠ [] := by
  refine ⟨rfl, rfl, ?_, rfl, ?_⟩ <;> decide

/-- C1 (amended): whenever the batch-completion callback is supplied,
`handleOk`'s batch branch invokes it exactly once, always with the full
requested list in its original order — for every classification,
including partial and all-failed. -/
theorem batch_callback_full_list (store : String → String → Except String Unit)
    (schema : EntitySchema) (path : String) (ctx : CMSAppContext)
    (hasEntityCb : Bool) (es : List Entity) :
    multiCallbackCalls (handleOk store schema path ctx hasEntityCb true
        (some (EntityOrEntities.multiple es))) = [(path, es)] := by
  have hnil : multiCallbackCalls
      ((es.map (performDelete store schema path ctx)).map Prod.snd).flatten = [] :=
    itemEvents_multiCallbackCalls (batch_flatten_itemEvents store schema path ctx es)
  unfold handleOk
  unfold multiCallbackCalls at hnil ⊢
  simp only [List.filterMap_cons, List.filterMap_append, hnil]
  simp

/-- C3 is false on the code: a batch of two targets whose store deletes
both fail emits three notifications — one error snackbar per failed
item, raised by the per-item `onDeleteFailure` handler, plus the
aggregate error snackbar — not exactly one. -/
theorem batch_single_notification_counterexample :
    (snackbars (handleOk (fun _ _ => Except.error "denied")
        ⟨⟨"Product", none, CustomIdPolicy.auto⟩, none, none, none, none, none⟩
        "products" ⟨⟩ false false
        (some (EntityOrEntities.multiple
          [⟨"1", "products/1", []⟩, ⟨"2", "products/2", []⟩])))).length = 3
    ∧ (3 : Nat) ≠ 1 := by
  refine ⟨rfl, by decide⟩

theorem performDelete_snackbar_count (store : String → String → Except String Unit)
    (schema : EntitySchema) (path : String) (ctx : CMSAppContext) (e : Entity)
    (hpre : schema.onPreDelete = none) (hpost : schema.onDelete = none) :
    (snackbars (performDelete store schema path ctx e).2).length
      = (if (performDelete store schema path ctx e).1 then 0 else 1) := by
  unfold performDelete deleteEntity
  simp only [hpre, hpost]
  cases hst : store path e.id <;>
    simp [snackbars, onDeleteSuccess, onDeleteFailure]

/-- C3 (amended): for a schema with no delete hooks, a batch delete
emits exactly one aggregate notification plus one error notification
per failed item (raised by the per-item failure handler): `1 + f`
snackbars in total, where `f` is the number of targets whose individual
delete failed.  Only the all-succeeded batch emits exactly one. -/
theorem batch_notification_count (store : String → String → Except String Unit)
    (schema : EntitySchema) (path : String) (ctx : CMSAppContext)
    (hasEntityCb hasMultiCb : Bool) (es : List Entity)
    (hpre : schema.onPreDelete = none) (hpost : schema.onDelete = none) :
    (snackbars (handleOk store schema path ctx hasEntityCb hasMultiCb
        (some (EntityOrEntities.multiple es)))).length
      = 1 + es.countP (fun e => !(performDelete store schema path ctx e).1) := by
  have key : ∀ l : List Entity,
      (snackbars ((l.map (performDelete store schema path ctx)).map Prod.snd).flatten).length
        = l.countP (fun e => !(performDelete store schema path ctx e).1) := by
    intro l
    induction l with
    | nil => rfl
    | cons a t ih =>
        have hc := performDelete_snackbar_count store schema path ctx a hpre hpost
        rw [List.map_cons, List.map_cons, List.flatten_cons, snackbars,
          List.filterMap_append, List.length_append, List.countP_cons]
        rw [snackbars] at hc ih
        rw [ih, hc]
        cases hr : (performDelete store schema path ctx a).1 <;> simp [hr]
        all_goals omega
  rw [handleOk_multiple_snackbars, List.length_append, key]
  simp [Nat.add_comm]

/-- Witness for C3 (amended): two targets, the store denying the second
delete; the batch emits 1 + 1 = 2 snackbars. -/
theorem batch_notification_count_witness :
    (snackbars (handleOk
        (fun _ i => if i = "1" then Except.ok () else Except.error "denied")
        ⟨⟨"Product", none, CustomIdPolicy.auto⟩, none, none, none, none, none⟩
        "products" ⟨⟩ false false
        (some (EntityOrEntities.multiple
          [⟨"1", "products/1", []⟩, ⟨"2", "products/2", []⟩])))).length
      = 1 + ([⟨"1", "products/1", []⟩, ⟨"2", "products/2", []⟩] : List Entity).countP
          (fun e => !(performDelete
            (fun _ i => if i = "1" then Except.ok () else Except.error "denied")
            ⟨⟨"Product", none, CustomIdPolicy.auto⟩, none, none, none, none, none⟩
            "products" ⟨⟩ e).1) :=
  batch_notification_count
    (fun _ i => if i = "1" then Except.ok () else Except.error "denied")
    ⟨⟨"Product", none, CustomIdPolicy.auto⟩, none, none, none, none, none⟩
    "products" ⟨⟩ false false
    [⟨"1", "products/1", []⟩, ⟨"2", "products/2", []⟩] rfl rfl

/-- C7: the batch is a join, not a race: `handleOk`'s batch trace is the
per-item traces (a prefix made only of per-item events, containing the
resolution of every launched delete) followed by the aggregate events —
loading cleared, batch callback, aggregate snackbar, dialog close — so
the aggregate result is surfaced only after every per-item operation
has resolved. -/
theorem batch_join_not_race (store : String → String → Except String Unit)
    (schema : EntitySchema) (path : String) (ctx : CMSAppContext)
    (hasEntityCb hasMultiCb : Bool) (es : List Entity) :
    ∃ pre : List Event,
      handleOk store schema path ctx hasEntityCb hasMultiCb
          (some (EntityOrEntities.multiple es))
        = Event.setLoading true :: pre
            ++ Event.setLoading false
              :: ((if hasMultiCb then [Event.callbackMultipleDelete path es] else [])
                  ++ [Event.snackbar (aggregateSnackbar schema
                        ((es.map (performDelete store schema path ctx)).map Prod.fst)),
                      Event.close])
      ∧ (∀ e ∈ es,
          Event.deleteResolved e.id (performDelete store schema path ctx e).1 ∈ pre)
      ∧ pre.all isDeleteItemEvent = true := by
  refine ⟨((es.map (performDelete store schema path ctx)).map Prod.snd).flatten,
    ?_, ?_, batch_flatten_itemEvents store schema path ctx es⟩
  · unfold handleOk
    simp
  · intro e he
    rw [List.mem_flatten]
    refine ⟨(performDelete store schema path ctx e).2, ?_,
      performDelete_resolved_mem store schema path ctx e⟩
    rw [List.mem_map]
    refine ⟨performDelete store schema path ctx e, ?_, rfl⟩
    rw [List.mem_map]
    exact ⟨e, he, rfl⟩

/-- C8: a one-element array input is normalized to the single-entity
path: the effect stores the lone entity with `multipleEntities` false,
the dialog shows the single-entity confirmation title and the entity
preview, and a successful Ok invokes `onEntityDelete` with that entity
while `onMultipleEntitiesDelete` is never invoked. -/
theorem single_element_array_normalized (store : String → String → Except String Unit)
    (schema : EntitySchema) (path : String) (ctx : CMSAppContext) (e : Entity)
    (hsucc : (performDelete store schema path ctx e).1 = true) :
    updateEntityOrEntitiesState (some (EntityOrEntities.multiple [e])) (none, none)
        = (some (EntityOrEntities.single e), some false)
    ∧ dialogTitle schema false = "Would you like to delete this " ++ schema.name ++ "?"
    ∧ dialogContent schema (some (EntityOrEntities.single e))
        = DialogContent.entityPreview e schema.name
    ∧ entityCallbackCalls (handleOk store schema path ctx true true
        (some (EntityOrEntities.single e))) = [(path, e)]
    ∧ multiCallbackCalls (handleOk store schema path ctx true true
        (some (EntityOrEntities.single e))) = [] := by
  have hitem := performDelete_all_itemEvents store schema path ctx e
  have hent := itemEvents_entityCallbackCalls hitem
  have hmul := itemEvents_multiCallbackCalls hitem
  refine ⟨rfl, rfl, rfl, ?_, ?_⟩
  · unfold handleOk
    unfold entityCallbackCalls at hent ⊢
    simp only [hsucc, List.filterMap_cons, List.filterMap_append, hent]
    simp
  · unfold handleOk
    unfold multiCallbackCalls at hmul ⊢
    simp only [hsucc, List.filterMap_cons, List.filterMap_append, hmul]
    simp

/-- Witness for C8: a store that accepts the delete of entity "1"; its
one-element batch is normalized and handled through the single path. -/
theorem single_element_array_normalized_witness :
    (updateEntityOrEntitiesState
        (some (EntityOrEntities.multiple [⟨"1", "products/1", []⟩])) (none, none)
      = (some (EntityOrEntities.single ⟨"1", "products/1", []⟩), some false))
    ∧ dialogTitle ⟨⟨"Product", none, CustomIdPolicy.auto⟩, none, none, none, none, none⟩
        false = "Would you like to delete this " ++ "Product" ++ "?"
    ∧ dialogContent ⟨⟨"Product", none, CustomIdPolicy.auto⟩, none, none, none, none, none⟩
        (some (EntityOrEntities.single ⟨"1", "products/1", []⟩))
      = DialogContent.entityPreview ⟨"1", "products/1", []⟩ "Product"
    ∧ entityCallbackCalls (handleOk (fun _ _ => Except.ok ())
        ⟨⟨"Product", none, CustomIdPolicy.auto⟩, none, none, none, none, none⟩
        "products" ⟨⟩ true true
        (some (EntityOrEntities.single ⟨"1", "products/1", []⟩)))
      = [("products", ⟨"1", "products/1", []⟩)]
    ∧ multiCallbackCalls (handleOk (fun _ _ => Except.ok ())
        ⟨⟨"Product", none, CustomIdPolicy.auto⟩, none, none, none, none, none⟩
        "products" ⟨⟩ true true
        (some (EntityOrEntities.single ⟨"1", "products/1", []⟩))) = [] :=
  single_element_array_normalized (fun _ _ => Except.ok ())
    ⟨⟨"Product", none, CustomIdPolicy.auto⟩, none, none, none, none, none⟩
    "products" ⟨⟩ ⟨"1", "products/1", []⟩ rfl

/-- C9: when the single-entity delete reports failure, `handleOk` only
toggles the loading flag around the delete's own trace: the dialog is
not closed, `onEntityDelete` is not invoked, every snackbar in the
trace is an error one (so no success notification), and the trace ends
with loading reset to false. -/
theorem single_failure_keeps_dialog_open (store : String → String → Except String Unit)
    (schema : EntitySchema) (path : String) (ctx : CMSAppContext) (e : Entity)
    (hasEntityCb hasMultiCb : Bool)
    (hfail : (performDelete store schema path ctx e).1 = false) :
    handleOk store schema path ctx hasEntityCb hasMultiCb
        (some (EntityOrEntities.single e))
      = Event.setLoading true
          :: ((performDelete store schema path ctx e).2 ++ [Event.setLoading false])
    ∧ closeCount (handleOk store schema path ctx hasEntityCb hasMultiCb
        (some (EntityOrEntities.single e))) = 0
    ∧ entityCallbackCalls (handleOk store schema path ctx hasEntityCb hasMultiCb
        (some (EntityOrEntities.single e))) = []
    ∧ (snackbars (handleOk store schema path ctx hasEntityCb hasMultiCb
        (some (EntityOrEntities.single e)))).all (fun s => s.type == "error") = true := by
  have hitem := performDelete_all_itemEvents store schema path ctx e
  have h1 : handleOk store schema path ctx hasEntityCb hasMultiCb
      (some (EntityOrEntities.single e))
      = Event.setLoading true
          :: ((performDelete store schema path ctx e).2 ++ [Event.setLoading false]) := by
    unfold handleOk
    simp [hfail]
  refine ⟨h1, ?_, ?_, ?_⟩
  · rw [h1, closeCount, List.countP_cons, List.countP_append]
    have hz := itemEvents_closeCount hitem
    rw [closeCount] at hz
    rw [hz]
    rfl
  · rw [h1, entityCallbackCalls, List.filterMap_cons, List.filterMap_append]
    have hz := itemEvents_entityCallbackCalls hitem
    rw [entityCallbackCalls] at hz
    rw [hz]
    rfl
  · rw [h1]
    have herr := itemEvents_snackbars_error hitem
    rw [snackbars] at herr ⊢
    rw [List.filterMap_cons, List.filterMap_append]
    simp only [List.all_append, herr]
    rfl

/-- Witness for C9: the store denies the delete of entity "1"; the
dialog stays open with only the per-item error snackbar emitted. -/
theorem single_failure_keeps_dialog_open_witness :
    (handleOk (fun _ _ => Except.error "denied")
        ⟨⟨"Product", none, CustomIdPolicy.auto⟩, none, none, none, none, none⟩
        "products" ⟨⟩ true true
        (some (EntityOrEntities.single ⟨"1", "products/1", []⟩))
      = Event.setLoading true
          :: ((performDelete (fun _ _ => Except.error "denied")
                ⟨⟨"Product", none, CustomIdPolicy.auto⟩, none, none, none, none, none⟩
                "products" ⟨⟩ ⟨"1", "products/1", []⟩).2
              ++ [Event.setLoading false]))
    ∧ closeCount (handleOk (fun _ _ => Except.error "denied")
        ⟨⟨"Product", none, CustomIdPolicy.auto⟩, none, none, none, none, none⟩
        "products" ⟨⟩ true true
        (some (EntityOrEntities.single ⟨"1", "products/1", []⟩))) = 0
    ∧ entityCallbackCalls (handleOk (fun _ _ => Except.error "denied")
        ⟨⟨"Product", none, CustomIdPolicy.auto⟩, none, none, none, none, none⟩
        "products" ⟨⟩ true true
        (some (EntityOrEntities.single ⟨"1", "products/1", []⟩))) = []
    ∧ (snackbars (handleOk (fun _ _ => Except.error "denied")
        ⟨⟨"Product", none, CustomIdPolicy.auto⟩, none, none, none, none, none⟩
        "products" ⟨⟩ true true
        (some (EntityOrEntities.single ⟨"1", "products/1", []⟩)))).all
          (fun s => s.type == "error") = true :=
  single_failure_keeps_dialog_open (fun _ _ => Except.error "denied")
    ⟨⟨"Product", none, CustomIdPolicy.auto⟩, none, none, none, none, none⟩
    "products" ⟨⟩ ⟨"1", "products/1", []⟩ true true rfl
